import Mathlib

/-!
Verification of the host-election protocol and peer-connection lifecycle
manager of the P2P-WebRTC repository, as a shallow embedding in Lean.

The definitions below translate the TypeScript source functions
(`hostElection`, `joinRoom.ts`, `presence.ts`, `webrtc.ts`, `signaling`)
into pure Lean functions over explicit state.  The backing store (the
`rooms` and `room_members` tables) is modelled as a record, and every
Supabase query or conditional update in the source becomes one atomic
operation on that record; interleavings of concurrent callers are
modelled as schedules of these atomic operations.
-/

deriving instance DecidableEq for Except

namespace P2P

abbrev UserId := String

/-- The durable room record and membership table, as one state.
`owner` is the `owner` column of the `rooms` row; `hostId` models the
distinct `host_id` column referenced only by `listenForMemberLeaves` and
`listenForHostChanges` (the row created by `joinRoom` carries only
`id`, `room_name` and `owner`); `members` is the set of `room_members`
rows for this room, as `user_id` values. -/
structure RoomsDB where
  roomExists : Bool
  owner : Option UserId
  hostId : Option UserId
  members : List UserId
deriving Repr, DecidableEq

/-- `getCurrentHost`: reads the `owner` column with `maybeSingle`; a
missing room row yields null. -/
def getCurrentHost (db : RoomsDB) : Option UserId :=
  if db.roomExists then db.owner else none

/-- A conditional update of the `owner` column keyed on its expected
prior value (`.eq('id', roomId)` plus `.is('owner', null)` or
`.eq('owner', expected)`), returning the updated row's `owner` from
`.select('owner').maybeSingle()` (none if no row matched). -/
def casOwner (db : RoomsDB) (expected : Option UserId) (newVal : Option UserId) :
    Option (Option UserId) × RoomsDB :=
  if db.roomExists && db.owner == expected then
    (some newVal, { db with owner := newVal })
  else
    (none, db)

/-- Membership probe: `room_members` select keyed on room and user. -/
def isMember (db : RoomsDB) (u : UserId) : Bool :=
  db.members.contains u

/-- `select('user_id').order('user_id', ascending).limit(1)`: the
lexicographically smallest member, if any. -/
def listMin : List UserId → Option UserId
  | [] => none
  | x :: xs => some (xs.foldl (fun acc y => if y < acc then y else acc) x)

/-- The control points of `electHost(roomId, userId)`; each phase
performs exactly one atomic store operation when stepped.  `doneB r`
means the call returned `r`. -/
inductive EPhase where
  | start
  | checkMember (h : UserId)
  | staleCas (h : UserId)
  | casNull
  | checkRoom
  | insertRoom
  | finalRead
  | doneB (r : Bool)
deriving Repr, DecidableEq

/-- One atomic step of `electHost` for caller `u` (error-free store):
read the current host; if non-null and not `u`, probe the host's
membership and, when stale, attempt the compare-and-swap keyed on the
stale value; if null, attempt the compare-and-swap keyed on null, and
on a miss re-check room existence (inserting the room if absent) and
finally re-read the owner, returning whether it is `u`. -/
def stepElect (u : UserId) (ph : EPhase) (db : RoomsDB) : EPhase × RoomsDB :=
  match ph with
  | .start =>
    match getCurrentHost db with
    | some h => if h == u then (.doneB true, db) else (.checkMember h, db)
    | none => (.casNull, db)
  | .checkMember h =>
    if isMember db h then (.doneB false, db) else (.staleCas h, db)
  | .staleCas h =>
    let r := casOwner db (some h) (some u)
    match r.1 with
    | some ow => if ow == some u then (.doneB true, r.2) else (.doneB false, r.2)
    | none => (.doneB false, r.2)
  | .casNull =>
    let r := casOwner db none (some u)
    match r.1 with
    | some ow => if ow == some u then (.doneB true, r.2) else (.checkRoom, r.2)
    | none => (.checkRoom, r.2)
  | .checkRoom =>
    if db.roomExists then (.finalRead, db) else (.insertRoom, db)
  | .insertRoom =>
    if db.roomExists then (.finalRead, db)
    else (.doneB true, { db with roomExists := true, owner := some u })
  | .finalRead =>
    (.doneB (getCurrentHost db == some u), db)
  | .doneB r => (.doneB r, db)

/-- Two concurrent `electHost` callers plus a count of the successful
owner writes each has performed. -/
structure RaceSt where
  db : RoomsDB
  pa : EPhase
  pb : EPhase
  winsA : Nat
  winsB : Nat
deriving Repr, DecidableEq

/-- Scheduler step: `true` lets caller A take its next atomic store
operation, `false` lets caller B; a finished caller's step is a no-op.
A caller's write counter increases exactly when its step changed the
stored owner. -/
def raceStep (A B : UserId) (s : RaceSt) (choice : Bool) : RaceSt :=
  if choice then
    let r := stepElect A s.pa s.db
    { s with pa := r.1, db := r.2,
             winsA := s.winsA + (if r.2.owner == s.db.owner then 0 else 1) }
  else
    let r := stepElect B s.pb s.db
    { s with pb := r.1, db := r.2,
             winsB := s.winsB + (if r.2.owner == s.db.owner then 0 else 1) }

def raceRun (A B : UserId) (sched : List Bool) (s : RaceSt) : RaceSt :=
  sched.foldl (raceStep A B) s

/-- Spec section 8 scenario: the room exists with `owner` null and
members a and b; both call `electHost` concurrently. -/
def raceInit : RaceSt :=
  ⟨⟨true, none, none, ["a", "b"]⟩, .start, .start, 0, 0⟩

/-- Once both calls returned: the results differ, the stored owner is
exactly the winner, the winner wrote the owner exactly once and the
loser never wrote it. -/
def raceOk (s : RaceSt) : Bool :=
  match s.pa, s.pb with
  | .doneB ra, .doneB rb =>
      (ra != rb)
      && (if ra then s.db.owner == some "a" && s.winsB == 0 && s.winsA == 1
          else s.db.owner == some "b" && s.winsA == 0 && s.winsB == 1)
  | _, _ => true

def raceCheck (sched : List Bool) : Bool :=
  raceOk (raceRun "a" "b" sched raceInit)

/-- All interleavings of `n` scheduler choices. -/
def allBoolLists : Nat → List (List Bool)
  | 0 => [[]]
  | n + 1 => (allBoolLists n).flatMap fun l => [true :: l, false :: l]

theorem mem_allBoolLists (l : List Bool) : l ∈ allBoolLists l.length := by
  induction l with
  | nil => simp [allBoolLists]
  | cons c rest ih =>
    simp only [List.length_cons, allBoolLists, List.mem_flatMap]
    exact ⟨rest, ih, by cases c <;> simp⟩

set_option maxRecDepth 4000 in
theorem raceCheck_all : (allBoolLists 10).all raceCheck = true := by decide

/-- C1: for a room with null owner and members a and b, under every
interleaving of the two concurrent `electHost` calls' atomic store
operations (each call takes at most five, so length-10 schedules with
no-op padding cover every complete interleaving), exactly one call
returns true, the stored owner afterwards is exactly that caller, and
the losing caller returned false and never wrote the owner field. -/
theorem electHost_race_single_winner (sched : List Bool) (h : sched.length = 10) :
    raceCheck sched = true :=
  List.all_eq_true.mp raceCheck_all sched (h ▸ mem_allBoolLists sched)

theorem electHost_race_single_winner_w :
    raceCheck [true, true, false, false, true, true, false, false, true, false] = true :=
  electHost_race_single_winner _ (by decide)

/-! ## Host-departure recovery listener (`listenForMemberLeaves`) -/

/-- The DELETE-event handler of `listenForMemberLeaves`, run after the
membership row of `leftUser` was removed (so `db.members` is the
post-delete table): it reads the current host via `getCurrentHost`
(the `owner` column); when the departed user was the host it fetches
the smallest remaining member; with no members it issues
`update(\x7b host_id: null \x7d).eq('id', roomId)`, otherwise
`update(\x7b host_id: candidate \x7d).eq('id', roomId).eq('host_id', currentHost)`.
Both writes target the `host_id` column, not `owner`. -/
def memberLeaveHandler (db : RoomsDB) (leftUser : UserId) : RoomsDB :=
  match getCurrentHost db with
  | none => db
  | some currentHost =>
    if currentHost == leftUser then
      match listMin db.members with
      | none =>
        if db.roomExists then { db with hostId := none } else db
      | some candidate =>
        if db.roomExists && db.hostId == some currentHost then
          { db with hostId := some candidate }
        else db
    else db

/-- C2: the recovery handler's promotion never touches the `owner`
column.  With room existing, `owner = a`, no `host_id` value (the rows
created by `joinRoom` and `electHost` carry only `id`, `room_name`,
`owner`), and remaining member b after the host a departs, the handler
leaves `owner = a` (and even its `host_id` compare-and-swap misses,
since `host_id` never equalled `a`): the recorded host is not handed
to the smallest remaining member b as the spec requires. -/
theorem memberLeave_promotion_writes_host_id :
    memberLeaveHandler ⟨true, some "a", none, ["b"]⟩ "a" = ⟨true, some "a", none, ["b"]⟩
    ∧ listMin ["b"] = some "b"
    ∧ (memberLeaveHandler ⟨true, some "a", none, ["b"]⟩ "a").owner ≠ some "b"
    ∧ memberLeaveHandler ⟨true, some "a", some "a", []⟩ "a" = ⟨true, some "a", none, []⟩ := by
  decide

/-! ## Conditionality of owner writes (design rationale) -/

/-- One `update` statement on the `rooms` table in the source,
transcribed as: the function it occurs in, the column it writes, whether
it writes null, and the filter it carries beyond `.eq('id', roomId)`
(the expected-prior-value condition), if any. -/
structure RoomUpd where
  source : String
  column : String
  setsNull : Bool
  priorCond : Option String
deriving Repr, DecidableEq

/-- Every `update` on `rooms` in the source: the host claim in
`joinRoom`, the two claims in `electHost`, the transfer in
`transferHost`, the clear and the promotion in `leaveRoom`, and the
clear and the promotion in the `listenForMemberLeaves` handler.
(Inserts create rows and are not mutations.) -/
def roomUpdates : List RoomUpd := [
  ⟨"joinRoom host claim", "owner", false, some "owner is null"⟩,
  ⟨"electHost null claim", "owner", false, some "owner is null"⟩,
  ⟨"electHost stale claim", "owner", false, some "owner eq current"⟩,
  ⟨"transferHost", "owner", false, some "owner eq fromUserId"⟩,
  ⟨"leaveRoom clear host", "owner", true, none⟩,
  ⟨"leaveRoom promote", "owner", false, some "owner eq currentHost"⟩,
  ⟨"memberLeave clear host", "host_id", true, none⟩,
  ⟨"memberLeave promote", "host_id", false, some "host_id eq currentHost"⟩]

/-- A write of the `owner` column carries an expected-prior-value
filter. -/
def ownerWriteKeyed (w : RoomUpd) : Bool :=
  !(w.column == "owner") || w.priorCond.isSome

/-- The clear-to-null write at the end of `leaveRoom`
(`update(\x7b owner: null \x7d).eq('id', roomId)`): keyed on the room id
alone, it applies whatever the owner holds at write time. -/
def leaveRoomClearWrite (db : RoomsDB) : RoomsDB :=
  if db.roomExists then { db with owner := none } else db

/-- C3 counterexample: not every owner write is conditional — the
`leaveRoom` clear-to-null write carries no expected-prior-value filter,
and semantically it overwrites an owner value (here c) that the writer
never observed. -/
theorem owner_writes_not_all_conditional :
    roomUpdates.all ownerWriteKeyed = false
    ∧ (⟨"leaveRoom clear host", "owner", true, none⟩ : RoomUpd) ∈ roomUpdates
    ∧ (leaveRoomClearWrite ⟨true, some "c", none, []⟩).owner = none := by
  decide

/-- C3 amended: every write that sets `owner` to a non-null candidate
host is conditional on a stated expected prior value of `owner`; only
the clear-to-null writes (and the listener's `host_id` writes) lack
that key. -/
theorem nonnull_owner_writes_conditional (w : RoomUpd) (hw : w ∈ roomUpdates)
    (hcol : w.column = "owner") (hnn : w.setsNull = false) :
    w.priorCond.isSome = true := by
  fin_cases hw <;> simp_all

theorem nonnull_owner_writes_conditional_w :
    (⟨"transferHost", "owner", false, some "owner eq fromUserId"⟩ : RoomUpd).priorCond.isSome
      = true :=
  nonnull_owner_writes_conditional _ (by decide) rfl rfl

/-! ## Peer-connection state machine (`webrtc.ts`) -/

/-- The `ConnectionState` union of `webrtc.ts`. -/
inductive CState where
  | idle
  | offering
  | answering
  | connecting
  | connected
  | failed
  | closed
deriving Repr, DecidableEq

/-- The `validTransitions` lookup table inside `updatePeerState`. -/
def codeValid : CState → CState → Bool
  | .idle, n => n == .offering || n == .answering || n == .closed
  | .offering, n => n == .connecting || n == .failed || n == .closed
  | .answering, n => n == .connecting || n == .failed || n == .closed
  | .connecting, n => n == .connected || n == .failed || n == .closed
  | .connected, n => n == .failed || n == .closed
  | .failed, n => n == .connecting || n == .closed
  | .closed, _ => false

/-- The transition edge set of spec section 4.4: idle to offering,
idle to answering, offering to connecting, answering to connecting,
connecting to connected, any to failed, any to closed. -/
def specEdge : CState → CState → Bool
  | _, .failed => true
  | _, .closed => true
  | .idle, .offering => true
  | .idle, .answering => true
  | .offering, .connecting => true
  | .answering, .connecting => true
  | .connecting, .connected => true
  | _, _ => false

/-- The bookkeeping fields of a `PeerConnection` entry (the transport
session and data-channel handles are modelled separately where a claim
needs them). -/
structure PEntry where
  state : CState
  retryCount : Nat
  lastError : Option String
deriving Repr, DecidableEq

/-- The state an entry is considered to be in by `updatePeerState`:
the entry's state, or idle when no entry exists. -/
def cstateOf (e : Option PEntry) : CState :=
  match e with
  | some c => c.state
  | none => .idle

/-- `updatePeerState`: computes the old state (idle when no entry),
checks the `(old, new)` pair against `validTransitions` (the Bool
result records that the invalid-transition warning was logged), then
applies the new state unconditionally — updating `lastError` when an
error string is given and resetting `retryCount` on connected — or,
when no entry exists and the target is not closed, creates a fresh
entry in the target state. -/
def updatePeerState (e : Option PEntry) (newState : CState) (err : Option String) :
    Option PEntry × Bool :=
  let oldState := cstateOf e
  let invalid := !(codeValid oldState newState)
  match e with
  | some c =>
    (some { c with
        state := newState,
        lastError := match err with | some m => some m | none => c.lastError,
        retryCount := if newState == .connected then 0 else c.retryCount },
     invalid)
  | none =>
    if newState == .closed then (none, invalid)
    else (some ⟨newState, 0, err⟩, invalid)

/-- `handleOffer` as it drives the per-peer state: the duplicate-offer
guard returns unchanged when the entry is connected or connecting;
otherwise `updatePeerState(from, 'answering')` runs, a fresh entry in
state answering replaces the map slot, and the negotiation
(setRemoteDescription, createAnswer, setLocalDescription, send) either
succeeds — `updatePeerState(from, 'connecting')` — or throws —
`updatePeerState(from, 'failed', …)`.  The returned list records the
`(old, new)` pairs of the `updatePeerState` calls performed. -/
def offerEvent (e : Option PEntry) (negotiationOk : Bool) :
    Option PEntry × List (CState × CState) :=
  let s0 := cstateOf e
  if s0 == .connected || s0 == .connecting then (e, [])
  else
    let r1 := updatePeerState e .answering none
    let e1 : Option PEntry := some ⟨.answering, 0, none⟩
    if negotiationOk then
      let r2 := updatePeerState e1 .connecting none
      ((r1.1, r2.1).2, [(s0, .answering), (.answering, .connecting)])
    else
      let r3 := updatePeerState e1 .failed (some "Failed to handle offer")
      ((r1.1, r3.1).2, [(s0, .answering), (.answering, .failed)])

/-- C4 counterexample: a reachable sequence of operations — an offer
whose negotiation fails, then a second offer from the same peer —
performs the state change failed to answering, which is outside the
section 4.4 edge set (and outside the code's own table); the manager
logs it and applies it anyway. -/
theorem state_change_outside_edge_set :
    (offerEvent (offerEvent none false).1 true).2
      = [(.failed, .answering), (.answering, .connecting)]
    ∧ specEdge .failed .answering = false
    ∧ codeValid .failed .answering = false
    ∧ cstateOf (offerEvent (offerEvent none false).1 true).1 = .connecting := by
  decide

/-- C4 amended: `updatePeerState` applies every requested state change
unconditionally — an existing entry always ends in the requested
state, a missing entry is created in it unless the target is closed —
while the invalid-transition warning fires exactly when the `(old,
new)` pair is outside the code's `validTransitions` table; that table
moreover differs from the section 4.4 edge set (it allows failed to
connecting, which is not a spec edge). -/
theorem updatePeerState_applies_unconditionally :
    (∀ (c : PEntry) (n : CState) (err : Option String),
        ((updatePeerState (some c) n err).1).map PEntry.state = some n)
    ∧ (∀ (n : CState) (err : Option String),
        ((updatePeerState none n err).1).map PEntry.state
          = if n == .closed then none else some n)
    ∧ (∀ (e : Option PEntry) (n : CState) (err : Option String),
        (updatePeerState e n err).2 = !(codeValid (cstateOf e) n))
    ∧ codeValid .failed .connecting = true
    ∧ specEdge .failed .connecting = false := by
  refine ⟨fun c n err => rfl, fun n err => ?_, fun e n err => ?_, rfl, rfl⟩
  · cases hn : (n == .closed) <;> simp [updatePeerState, hn]
  · cases e with
    | some c => rfl
    | none => cases hn : (n == .closed) <;> simp [updatePeerState, hn]

/-! ## ICE-candidate buffering (`handleRemoteIce`, `createPeerConnection`,
`handleOffer`) -/

/-- The candidate-relevant view of one peer's slot: whether
`peerConnections` holds an entry, the `pendingCandidates` queue, and
the candidates applied to the transport session via `addIceCandidate`
(candidates are opaque payloads, numbered). -/
structure IceSt where
  hasConn : Bool
  pending : List Nat
  applied : List Nat
deriving Repr, DecidableEq

/-- `handleRemoteIce`: with no entry for the peer the candidate is
appended to the pending queue; with an entry it is applied to the
session immediately. -/
def handleRemoteIceStep (s : IceSt) (c : Nat) : IceSt :=
  if s.hasConn then { s with applied := s.applied ++ [c] }
  else { s with pending := s.pending ++ [c] }

/-- `createPeerConnection` ends with
`pendingCandidates.set(peerId, [])`: it resets the peer's pending
queue to empty. -/
def createPeerConnectionIce (s : IceSt) : IceSt :=
  { s with pending := [] }

/-- The candidate flow of `handleOffer` for a peer with no
connected/connecting entry: `createPeerConnection` (which resets the
pending queue), then `peerConnections.set` (an entry now exists), then
after the answer is sent the pending queue is drained into the session
in order and set to empty. -/
def handleOfferIce (s : IceSt) : IceSt :=
  if s.hasConn then s
  else
    let s1 := createPeerConnectionIce s
    let s2 := { s1 with hasConn := true }
    { s2 with applied := s2.applied ++ s2.pending, pending := [] }

/-- C5: a candidate received before any session exists is enqueued
(`pending = [7]`), but handling the offer applies no candidate at all
(`applied = []`), because `createPeerConnection` resets the pending
queue before the flush loop reads it: the buffered candidate is lost. -/
theorem pending_candidates_lost_on_offer :
    (handleRemoteIceStep ⟨false, [], []⟩ 7).pending = [7]
    ∧ (createPeerConnectionIce (handleRemoteIceStep ⟨false, [], []⟩ 7)).pending = []
    ∧ handleOfferIce (handleRemoteIceStep ⟨false, [], []⟩ 7) = ⟨true, [], []⟩ := by
  decide

/-! ## Idempotent dial (`connectToPeer`) -/

/-- Data-channel readiness as `connectToPeer` and `broadcast` test it. -/
inductive DcState where
  | openCh
  | closedCh
  | connectingCh
deriving Repr, DecidableEq

/-- The dial-relevant view of one peer's entry. -/
structure DialEntry where
  state : CState
  dc : Option DcState
deriving Repr, DecidableEq

structure DialSt where
  entry : Option DialEntry
  offersSent : Nat
deriving Repr, DecidableEq

/-- `connectToPeer` for one peer: a non-host caller gets a permission
error; an entry in state connected with an open channel, or in state
connecting, returns without dialing; any other situation dials — a
fresh session and channel are created, the state passes offering and
reaches connecting, and one offer is sent. -/
def connectToPeerStep (s : DialSt) (hostFlag : Bool) : Except String DialSt :=
  if !hostFlag then .error "Permission denied: only host can connect to peers"
  else
    match s.entry with
    | some e =>
      if e.state == .connected && e.dc == some .openCh then .ok s
      else if e.state == .connecting then .ok s
      else .ok ⟨some ⟨.connecting, some .connectingCh⟩, s.offersSent + 1⟩
    | none => .ok ⟨some ⟨.connecting, some .connectingCh⟩, s.offersSent + 1⟩

/-- C6 counterexample: an entry already in state connected whose
channel is not open does not short-circuit — the call dials anew and
sends a fresh offer, against the claim that a connected entry always
makes a second call a no-op. -/
theorem connected_closed_channel_redial :
    connectToPeerStep ⟨some ⟨.connected, some .closedCh⟩, 0⟩ true
      = .ok ⟨some ⟨.connecting, some .connectingCh⟩, 1⟩
    ∧ connectToPeerStep ⟨some ⟨.connected, some .closedCh⟩, 0⟩ true
        ≠ .ok ⟨some ⟨.connected, some .closedCh⟩, 0⟩ := by
  decide

/-- C6 amended: `connectToPeer` performs no new dial when the entry is
in state connecting, or in state connected with an open data channel;
and a first dial followed by a second call while the first is still
connecting sends exactly one offer in total. -/
theorem connectToPeer_noop_when_connecting_or_open :
    (∀ (e : DialEntry) (n : Nat),
        e.state = .connecting ∨ (e.state = .connected ∧ e.dc = some .openCh) →
        connectToPeerStep ⟨some e, n⟩ true = .ok ⟨some e, n⟩)
    ∧ connectToPeerStep ⟨none, 0⟩ true = .ok ⟨some ⟨.connecting, some .connectingCh⟩, 1⟩
    ∧ connectToPeerStep ⟨some ⟨.connecting, some .connectingCh⟩, 1⟩ true
        = .ok ⟨some ⟨.connecting, some .connectingCh⟩, 1⟩ := by
  refine ⟨fun e n h => ?_, rfl, rfl⟩
  rcases h with h | ⟨h1, h2⟩
  · cases hc : (e.state == .connected && e.dc == some DcState.openCh) <;>
      simp [connectToPeerStep, hc, h]
  · simp [connectToPeerStep, h1, h2]

theorem connectToPeer_noop_when_connecting_or_open_w :
    connectToPeerStep ⟨some ⟨.connecting, some .connectingCh⟩, 5⟩ true
      = .ok ⟨some ⟨.connecting, some .connectingCh⟩, 5⟩ :=
  connectToPeer_noop_when_connecting_or_open.1 _ 5 (Or.inl rfl)

/-! ## Broadcast (`broadcast`) -/

/-- One peer as `broadcast` sees it: identifier, connection state,
channel handle with its readiness, and whether a send on the channel
would throw. -/
structure BPeer where
  pid : String
  state : CState
  dc : Option DcState
  sendFails : Bool
deriving Repr, DecidableEq

/-- `broadcast`: iterates over all entries; a peer is attempted exactly
when it has a channel in readyState open and is in state connected;
a throwing send is caught and recorded as a per-peer error string,
otherwise the sent counter increases; peers failing the guard are
skipped with neither a send nor an error.  Returns the sent count and
the collected errors; it never throws. -/
def broadcast : List BPeer → Nat × List String
  | [] => (0, [])
  | p :: rest =>
    let r := broadcast rest
    if p.dc == some .openCh && p.state == .connected then
      if p.sendFails then (r.1, (p.pid ++ ": send error") :: r.2)
      else (r.1 + 1, r.2)
    else r

/-- A peer to which delivery succeeds. -/
def delivered (p : BPeer) : Bool :=
  p.dc == some .openCh && p.state == .connected && !p.sendFails

/-- A peer whose attempted send throws (open channel, connected
state). -/
def errored (p : BPeer) : Bool :=
  p.dc == some .openCh && p.state == .connected && p.sendFails

/-- Three peers in state connected, one of which has a closed data
channel. -/
def threePeers : List BPeer :=
  [⟨"p1", .connected, some .openCh, false⟩,
   ⟨"p2", .connected, some .openCh, false⟩,
   ⟨"p3", .connected, some .closedCh, false⟩]

/-- C7 counterexample: with three connected peers of which one has a
closed channel, `broadcast` reports delivery to two peers but records
zero errors — the closed-channel peer is silently skipped by the
guard, so the claimed one recorded error does not exist. -/
theorem broadcast_closed_channel_silent_skip :
    broadcast threePeers = (2, [])
    ∧ (broadcast threePeers).2.length ≠ 1 := by
  decide

/-- C7 amended: `broadcast` attempts delivery to exactly the peers in
state connected with an open channel, never throws, reports the number
delivered, and records one error per peer whose send on an open
channel threw; peers whose channel is not open (or whose state is not
connected) are skipped without an error, so the three-peer scenario
with one closed channel reports two deliveries and zero errors. -/
theorem broadcast_counts :
    (∀ l : List BPeer,
        (broadcast l).1 = (l.filter delivered).length
        ∧ (broadcast l).2.length = (l.filter errored).length)
    ∧ broadcast threePeers = (2, []) := by
  refine ⟨fun l => ?_, by decide⟩
  induction l with
  | nil => simp [broadcast]
  | cons p rest ih =>
    cases hg : (p.dc == some DcState.openCh && p.state == CState.connected) with
    | false =>
      have hd : delivered p = false := by
        simp only [delivered]
        cases h1 : (p.dc == some DcState.openCh) <;>
          cases h2 : (p.state == CState.connected) <;> simp_all
      have he : errored p = false := by
        simp only [errored]
        cases h1 : (p.dc == some DcState.openCh) <;>
          cases h2 : (p.state == CState.connected) <;> simp_all
      simp [broadcast, hg, hd, he, ih.1, ih.2]
    | true =>
      cases hf : p.sendFails with
      | false =>
        have hd : delivered p = true := by simp only [delivered]; simp_all
        have he : errored p = false := by simp only [errored]; simp_all
        simp [broadcast, hg, hf, hd, he, ih.1, ih.2]
      | true =>
        have hd : delivered p = false := by simp only [delivered]; simp_all
        have he : errored p = true := by simp only [errored]; simp_all
        simp [broadcast, hg, hf, hd, he, ih.1, ih.2]

/-! ## Presence-to-membership reconciliation (`joinPresence`) -/

/-- The presence view as `presenceState()` returns it: one entry per
key, each with its list of metas; a meta's `user_id` field may be
absent.  The source collects the `user_id` of the first meta of each
key into a set. -/
def presentUserIds (state : List (String × List (Option UserId))) : List UserId :=
  state.foldl (fun acc kv =>
    match kv.2 with
    | some uid :: _ => if acc.contains uid then acc else acc ++ [uid]
    | none :: _ => acc
    | [] => acc) []

/-- The reconciliation block at the end of `joinPresence`, returning
the membership rows it deletes: it skips entirely when the collected
user-id set and the raw presence state are both empty; otherwise it
marks every membership row absent from presence and different from the
caller, and deletes the marked rows only when at least one user is
present. -/
def reconcile (state : List (String × List (Option UserId)))
    (members : List UserId) (userId : UserId) : List UserId :=
  let present := presentUserIds state
  if present.isEmpty && state.isEmpty then []
  else
    let toRemove := members.filter fun m => !(present.contains m) && m != userId
    if !toRemove.isEmpty && !present.isEmpty then toRemove else []

/-- C8: reconciliation deletes a membership row only for a participant
absent from the presence view and different from the caller, and an
empty presence view causes zero deletions no matter what stale rows
the membership table lists. -/
theorem reconcile_safety :
    (∀ state members caller uid, uid ∈ reconcile state members caller →
        (presentUserIds state).contains uid = false
        ∧ uid ≠ caller
        ∧ presentUserIds state ≠ [])
    ∧ (∀ state members caller, presentUserIds state = [] →
        reconcile state members caller = []) := by
  constructor
  · intro state members caller uid h
    unfold reconcile at h
    dsimp only at h
    split at h
    · simp at h
    · split at h
      · rename_i hguard
        have hm := List.mem_filter.mp h
        have h1 : (!(presentUserIds state).contains uid && uid != caller) = true := hm.2
        have hc : (presentUserIds state).contains uid = false := by
          cases hx : (presentUserIds state).contains uid <;> simp_all
        have hne : uid ≠ caller := by
          cases hy : (uid != caller) <;> simp_all
        refine ⟨hc, hne, ?_⟩
        intro hemp
        rw [hemp] at hguard
        simp at hguard
      · simp at h
  · intro state members caller hemp
    unfold reconcile
    rw [hemp]
    dsimp only
    split
    · rfl
    · simp

theorem reconcile_safety_w :
    reconcile [] ["stale1", "stale2"] "me" = [] :=
  reconcile_safety.2 [] ["stale1", "stale2"] "me" rfl

/-! ## Teardown order (`disconnectFromRoom`, `leavePresence`,
`leaveRoom`) -/

/-- The externally visible teardown actions, in the order the
operations issue them. -/
inductive TEvent where
  | untrackPresence
  | deleteMembership (u : UserId)
  | clearOwnerWrite
  | promoteOwnerWrite (c : UserId)
  | unsubPresence
  | closeSignalBus
  | closePeerConn (p : UserId)
  | closeMembersChannel
deriving Repr, DecidableEq

/-- `leaveRoom(roomId)` for caller `u`: deletes the caller's
membership row, reads the room row (returning if absent), returns
unless the recorded owner is the caller, then either clears the owner
(no members left) or promotes the smallest remaining member with the
compare-and-swap keyed on the old owner. -/
def leaveRoomT (db : RoomsDB) (u : UserId) : RoomsDB × List TEvent :=
  let db1 := { db with members := db.members.erase u }
  let ev : List TEvent := [.deleteMembership u]
  if !db1.roomExists then (db1, ev)
  else if db1.owner != some u then (db1, ev)
  else
    match listMin db1.members with
    | none => ({ db1 with owner := none }, ev ++ [.clearOwnerWrite])
    | some c =>
      if db1.owner == some u then
        ({ db1 with owner := some c }, ev ++ [.promoteOwnerWrite c])
      else (db1, ev ++ [.promoteOwnerWrite c])

/-- The presence module's state: channel handle open, tracked flag,
and the recorded current room. -/
structure PresSt where
  channelOpen : Bool
  tracked : Bool
  currentRoom : Option String
deriving Repr, DecidableEq

/-- `leavePresence()`: returns at once when no channel is attached;
otherwise it untracks (when tracked), calls `leaveRoom(currentRoomId)`
(when a current room is recorded) — which deletes the caller's
membership row — and only then unsubscribes the presence channel. -/
def leavePresenceT (ps : PresSt) (db : RoomsDB) (u : UserId) :
    PresSt × RoomsDB × List TEvent :=
  if !ps.channelOpen then (ps, db, [])
  else
    let ev0 : List TEvent := if ps.tracked then [.untrackPresence] else []
    let r :=
      match ps.currentRoom with
      | some _ => leaveRoomT db u
      | none => (db, [])
    (⟨false, false, none⟩, r.1, ev0 ++ r.2 ++ [.unsubPresence])

/-- `cleanup()` of the connection manager: closes every peer and
unsubscribes the room-members channel. -/
def cleanupT (peers : List UserId) : List TEvent :=
  (peers.map TEvent.closePeerConn) ++ [.closeMembersChannel]

/-- `disconnectFromRoom(roomId)`: `leavePresence()`, then
`closeSignaling()`, then `cleanup()`, then `leaveRoom(roomId)`. -/
def disconnectFromRoomT (ps : PresSt) (db : RoomsDB) (peers : List UserId) (u : UserId) :
    PresSt × RoomsDB × List TEvent :=
  let r1 := leavePresenceT ps db u
  let r2 := leaveRoomT r1.2.1 u
  (r1.1, r2.1, r1.2.2 ++ [.closeSignalBus] ++ cleanupT peers ++ r2.2)

/-- C9 counterexample: in the teardown trace of `disconnectFromRoom`
for an attached, tracked session, the caller's membership row is
deleted strictly before the signal bus is closed — `leavePresence`
itself calls `leaveRoom` — against the claim that the membership row
is not removed before the signal-bus subscriptions are closed. -/
theorem membership_removed_before_bus_close :
    ((disconnectFromRoomT ⟨true, true, some "R"⟩ ⟨true, some "me", none, ["me"]⟩ []
        "me").2.2.takeWhile fun e => e != .closeSignalBus).contains
      (.deleteMembership "me") = true
    ∧ (disconnectFromRoomT ⟨true, true, some "R"⟩ ⟨true, some "me", none, ["me"]⟩ []
        "me").2.2
      = [.untrackPresence, .deleteMembership "me", .clearOwnerWrite, .unsubPresence,
         .closeSignalBus, .closeMembersChannel, .deleteMembership "me"] := by
  decide

/-- Membership deletion is always part of the `leaveRoom` trace. -/
theorem deleteMembership_mem_leaveRoomT (db : RoomsDB) (u : UserId) :
    TEvent.deleteMembership u ∈ (leaveRoomT db u).2 := by
  unfold leaveRoomT
  dsimp only
  split
  · simp
  · split
    · simp
    · split
      · simp
      · split <;> simp

/-- C9 amended: `disconnectFromRoom` runs `leavePresence`, then closes
the signal bus, then closes every peer connection and the members
channel, then runs `leaveRoom` once more; but `leavePresence` itself
already removes the caller's membership row (with host handoff)
between untracking and unsubscribing presence, so whenever the
presence channel is attached with a recorded room, the membership
deletion occurs in the segment before the signal bus closes. -/
theorem disconnect_teardown_order (ps : PresSt) (db : RoomsDB) (peers : List UserId)
    (u : UserId) (hOpen : ps.channelOpen = true) (r : String)
    (hRoom : ps.currentRoom = some r) :
    (disconnectFromRoomT ps db peers u).2.2
      = (leavePresenceT ps db u).2.2 ++ [.closeSignalBus] ++ cleanupT peers
        ++ (leaveRoomT ((leavePresenceT ps db u).2.1) u).2
    ∧ TEvent.deleteMembership u ∈ (leavePresenceT ps db u).2.2 := by
  refine ⟨rfl, ?_⟩
  unfold leavePresenceT
  rw [hOpen, hRoom]
  simp [deleteMembership_mem_leaveRoomT]

theorem disconnect_teardown_order_w :
    (disconnectFromRoomT ⟨true, false, some "R"⟩ ⟨true, none, none, ["x"]⟩ ["x"]
        "me").2.2
      = (leavePresenceT ⟨true, false, some "R"⟩ ⟨true, none, none, ["x"]⟩ "me").2.2
        ++ [.closeSignalBus] ++ cleanupT ["x"]
        ++ (leaveRoomT ((leavePresenceT ⟨true, false, some "R"⟩ ⟨true, none, none, ["x"]⟩
              "me").2.1) "me").2
    ∧ TEvent.deleteMembership "me"
        ∈ (leavePresenceT ⟨true, false, some "R"⟩ ⟨true, none, none, ["x"]⟩ "me").2.2 :=
  disconnect_teardown_order _ _ _ _ rfl "R" rfl

/-! ## Offer gating in the signal handler (`initWebRTC`) -/

/-- The signal message types the webrtc handler inspects. -/
inductive SigType where
  | offer
  | answer
  | ice
  | hostElected
deriving Repr, DecidableEq

structure SigMsg where
  mfrom : UserId
  mto : UserId
  mtype : SigType
deriving Repr, DecidableEq

/-- The webrtc module state the signal handler reads and the per-peer
map plus sent answers it can affect. -/
structure WebState where
  myId : Option UserId
  hostFlag : Bool
  currentHostId : Option UserId
  peers : List (UserId × CState)
  answersSent : List UserId
deriving Repr, DecidableEq

def upsertPeer (l : List (UserId × CState)) (u : UserId) (s : CState) :
    List (UserId × CState) :=
  match l with
  | [] => [(u, s)]
  | (v, t) :: rest => if v == u then (u, s) :: rest else (v, t) :: upsertPeer rest u s

def lookupPeer (l : List (UserId × CState)) (u : UserId) : Option CState :=
  match l with
  | [] => none
  | (v, t) :: rest => if v == u then some t else lookupPeer rest u

/-- The effect of `handleOffer(from, …)` on the module state: the
duplicate-offer guard returns unchanged (no answer) when the sender's
entry is already connected or connecting; otherwise the entry passes
answering and — when the negotiation (setRemoteDescription,
createAnswer, setLocalDescription) succeeds — reaches connecting with
one answer sent back, while a negotiation failure leaves the entry
failed with no answer sent. -/
def handleOfferModel (st : WebState) (sender : UserId) (negotiationOk : Bool) : WebState :=
  match lookupPeer st.peers sender with
  | some s =>
    if s == .connected || s == .connecting then st
    else handleOfferProceed st sender negotiationOk
  | none => handleOfferProceed st sender negotiationOk
where
  handleOfferProceed (st : WebState) (sender : UserId) (negotiationOk : Bool) : WebState :=
    if negotiationOk then
      { st with peers := upsertPeer st.peers sender .connecting,
                answersSent := st.answersSent ++ [sender] }
    else
      { st with peers := upsertPeer st.peers sender .failed }

/-- The `onSignal` callback registered by `initWebRTC`: drops messages
when unauthenticated, not addressed to the local identity, or from the
local identity; rejects an offer when the local participant is not
host and the sender differs from the recorded current host; otherwise
dispatches offers to `handleOffer` with the given negotiation outcome
(answer and ice handling mutate only the session and candidate queues,
modelled elsewhere). -/
def signalStep (st : WebState) (msg : SigMsg) (negotiationOk : Bool) : WebState :=
  match st.myId with
  | none => st
  | some me =>
    if msg.mto != me then st
    else if msg.mfrom == me then st
    else if msg.mtype == .offer && !st.hostFlag && !(st.currentHostId == some msg.mfrom)
      then st
    else
      match msg.mtype with
      | .offer => handleOfferModel st msg.mfrom negotiationOk
      | .answer => st
      | .ice => st
      | .hostElected => st

/-- C10: a non-host participant never acts on an offer whose sender
differs from its recorded current host — the handler returns with the
state untouched (no peer entry created or changed, no answer sent),
whatever the negotiation would do — while an offer from the recorded
host is dispatched to `handleOffer`; in particular, for a host peer
with no existing entry and a successful negotiation, the offer is
answered. -/
theorem offer_gate_nonhost (st : WebState) (msg : SigMsg) (me : UserId)
    (negotiationOk : Bool) (hme : st.myId = some me) (hto : msg.mto = me)
    (hfrom : msg.mfrom ≠ me) (htype : msg.mtype = .offer)
    (hnothost : st.hostFlag = false) :
    (st.currentHostId ≠ some msg.mfrom → signalStep st msg negotiationOk = st)
    ∧ (st.currentHostId = some msg.mfrom →
        signalStep st msg negotiationOk = handleOfferModel st msg.mfrom negotiationOk
        ∧ (lookupPeer st.peers msg.mfrom = none → negotiationOk = true →
            msg.mfrom ∈ (signalStep st msg negotiationOk).answersSent)) := by
  constructor
  · intro hne
    unfold signalStep
    rw [hme]
    have h1 : (msg.mto != me) = false := by simp [hto]
    have h2 : (msg.mfrom == me) = false := by simp [hfrom]
    have h3 : (st.currentHostId == some msg.mfrom) = false := by
      cases hx : (st.currentHostId == some msg.mfrom)
      · rfl
      · exact absurd (by simpa using hx) hne
    simp [h1, h2, h3, htype, hnothost]
  · intro heq
    have h1 : (msg.mto != me) = false := by simp [hto]
    have h2 : (msg.mfrom == me) = false := by simp [hfrom]
    have h3 : (st.currentHostId == some msg.mfrom) = true := by simp [heq]
    have hdisp : signalStep st msg negotiationOk
        = handleOfferModel st msg.mfrom negotiationOk := by
      unfold signalStep
      rw [hme]
      simp [h1, h2, h3, htype]
    refine ⟨hdisp, fun hnone hok => ?_⟩
    rw [hdisp, handleOfferModel, hnone, hok]
    simp [handleOfferModel.handleOfferProceed]

theorem offer_gate_nonhost_w :
    signalStep ⟨some "me", false, some "h", [], []⟩ ⟨"x", "me", .offer⟩ true
      = ⟨some "me", false, some "h", [], []⟩
    ∧ "h" ∈ (signalStep ⟨some "me", false, some "h", [], []⟩ ⟨"h", "me", .offer⟩
        true).answersSent :=
  ⟨(offer_gate_nonhost _ _ "me" true rfl rfl (by decide) rfl rfl).1 (by decide),
   ((offer_gate_nonhost _ _ "me" true rfl rfl (by decide) rfl rfl).2 rfl).2 rfl rfl⟩

end P2P
